import Mathlib

/-!
Verification of the resilience layer (token-bucket rate limiter,
circuit breaker, tagged LRU/TTL cache) of the `playon` repository.

The TypeScript sources are shallowly embedded: every mutation of a
class instance becomes an explicit state-passing function, every call
to `Date.now()` becomes an explicit `now : Int` parameter (milliseconds
since the epoch), and asynchronous operations are represented by their
outcome (`Except E T`).  Numbers that the source manipulates as integer
millisecond timestamps or integer counters are modelled as `Int`;
`Math.floor` of an integer quotient is `Int.fdiv` and `Math.ceil` is
`jsCeilDiv`.
-/

/-- `Math.ceil (a / b)` for integers `a`, positive `b`, as JavaScript
computes it on integer inputs. -/
def jsCeilDiv (a b : Int) : Int := -(Int.fdiv (-a) b)

/-! ## RateLimiter (src/RateLimiter.ts)

State of a `RateLimiter` instance: the private fields `tokens` and
`lastRefill`.  The immutable constructor options that matter to the
token-bucket algorithm are `maxRequests` and `windowMs`. -/

structure RateLimitOptions where
  maxRequests : Int
  windowMs : Int
  deriving Repr, DecidableEq

structure RateLimiterState where
  tokens : Int
  lastRefill : Int
  deriving Repr, DecidableEq

/-- `RateLimitStatus` as returned by `checkLimit` / `getStatus`. -/
structure RateLimitStatus where
  tokensRemaining : Int
  maxTokens : Int
  resetTime : Int
  allowed : Bool
  retryAfter : Option Int
  deriving Repr, DecidableEq

namespace RateLimiter

/-- `new RateLimiter(options)`: tokens start at `maxRequests`,
`lastRefill` at the construction instant. -/
def init (o : RateLimitOptions) (now : Int) : RateLimiterState :=
  { tokens := o.maxRequests, lastRefill := now }

/-- `private refillTokens()`: if a full window has elapsed, add
`windowsPassed * maxRequests` tokens capped at `maxRequests`, and set
`lastRefill` to the current time. -/
def refillTokens (o : RateLimitOptions) (now : Int) (s : RateLimiterState) :
    RateLimiterState :=
  let timePassed := now - s.lastRefill
  if o.windowMs ≤ timePassed then
    let windowsPassed := Int.fdiv timePassed o.windowMs
    { tokens := min o.maxRequests (s.tokens + windowsPassed * o.maxRequests),
      lastRefill := now }
  else
    s

/-- `private getResetTime()`: time until the current window ends,
clamped at 0. -/
def getResetTime (o : RateLimitOptions) (now : Int) (s : RateLimiterState) : Int :=
  max 0 (o.windowMs - (now - s.lastRefill))

/-- `checkLimit()`: refill, then consume one token when available;
returns the status object together with the updated private state. -/
def checkLimit (o : RateLimitOptions) (now : Int) (s : RateLimiterState) :
    RateLimitStatus × RateLimiterState :=
  let s1 := refillTokens o now s
  if 0 < s1.tokens then
    ({ tokensRemaining := s1.tokens - 1
       maxTokens := o.maxRequests
       resetTime := getResetTime o now s1
       allowed := true
       retryAfter := none },
     { s1 with tokens := s1.tokens - 1 })
  else
    ({ tokensRemaining := s1.tokens
       maxTokens := o.maxRequests
       resetTime := getResetTime o now s1
       allowed := false
       retryAfter := some (jsCeilDiv (getResetTime o now s1) 1000) },
     s1)

/-- `getStatus()`: refill, then report without decrementing. -/
def getStatus (o : RateLimitOptions) (now : Int) (s : RateLimiterState) :
    RateLimitStatus × RateLimiterState :=
  let s1 := refillTokens o now s
  ({ tokensRemaining := s1.tokens
     maxTokens := o.maxRequests
     resetTime := getResetTime o now s1
     allowed := 0 < s1.tokens
     retryAfter :=
       if 0 < s1.tokens then none
       else some (jsCeilDiv (getResetTime o now s1) 1000) },
   s1)

/-- `getHeaders()`: refills, then renders read-only header strings; its
effect on the private state is exactly the refill. -/
def getHeaders (o : RateLimitOptions) (now : Int) (s : RateLimiterState) :
    RateLimiterState :=
  refillTokens o now s

/-- `reset()`: restore full capacity. -/
def reset (o : RateLimitOptions) (now : Int) (_s : RateLimiterState) :
    RateLimiterState :=
  { tokens := o.maxRequests, lastRefill := now }

/-- The public operations of a `RateLimiter` instance, as far as they
touch the private state.  `execute` (the guarded-execution retry loop)
mutates the state only through the `checkLimit` calls of its attempts;
`execAttempts ts` models one `execute` call whose attempts run at the
instants `ts`. -/
inductive Op where
  | check (now : Int)
  | status (now : Int)
  | headers (now : Int)
  | doReset (now : Int)
  | execAttempts (ts : List Int)
  deriving Repr

/-- Apply one public operation to the private state. -/
def applyOp (o : RateLimitOptions) (s : RateLimiterState) : Op → RateLimiterState
  | .check now => (checkLimit o now s).2
  | .status now => (getStatus o now s).2
  | .headers now => getHeaders o now s
  | .doReset now => reset o now s
  | .execAttempts ts => ts.foldl (fun s' t => (checkLimit o t s').2) s

/-- Apply a sequence of public operations. -/
def applyOps (o : RateLimitOptions) (s : RateLimiterState) (ops : List Op) :
    RateLimiterState :=
  ops.foldl (applyOp o) s

/-- The token-bucket invariant of §3. -/
def Inv (o : RateLimitOptions) (s : RateLimiterState) : Prop :=
  0 ≤ s.tokens ∧ s.tokens ≤ o.maxRequests

end RateLimiter

/-! ## CircuitBreaker (src/unnamed/part_000)

The breaker is generic in the wrapped operation's error type `E` and
result type `T`.  The wrapped asynchronous operation is represented by
its outcome `Except E T`; all `Date.now()` / `new Date()` readings
inside one `execute` call are a single instant `now` (the embedding
collapses the duration of the wrapped call). -/

inductive CircuitState where
  | CLOSED
  | OPEN
  | HALF_OPEN
  deriving Repr, DecidableEq

/-- `CircuitBreakerConfig`: the optional `isFailure` predicate is
`Option (E → Bool)` (absent means every error qualifies), and the
optional `fallback` is represented by the value it resolves to. -/
structure CircuitBreakerConfig (E T : Type) where
  failureThreshold : Int
  successThreshold : Int
  timeout : Int
  monitoringPeriod : Int
  isFailure : Option (E → Bool)
  fallback : Option T

/-- Mutable fields of a `CircuitBreaker` instance. -/
structure CircuitBreakerState where
  state : CircuitState
  failureCount : Int
  successCount : Int
  totalRequests : Int
  lastFailureTime : Option Int
  lastSuccessTime : Option Int
  nextAttemptTime : Option Int
  startTime : Int
  failures : List Int
  deriving Repr, DecidableEq

/-- `CircuitBreakerMetrics` as produced by `getMetrics()`. -/
structure CircuitBreakerMetrics where
  state : CircuitState
  failureCount : Int
  successCount : Int
  totalRequests : Int
  lastFailureTime : Option Int
  lastSuccessTime : Option Int
  nextAttemptTime : Option Int
  uptime : Int
  failureRate : Rat
  deriving Repr, DecidableEq

/-- Outcome of one `execute` call: the operation's result returned, the
fallback's result returned, a thrown `CircuitBreakerError` (carrying
the breaker state and a metrics snapshot), or the operation's own error
rethrown. -/
inductive CBResult (E T : Type) where
  | ok (t : T)
  | fallback (t : T)
  | circuitOpen (st : CircuitState) (m : CircuitBreakerMetrics)
  | opError (e : E)
  deriving DecidableEq

def CBResult.isCircuitOpen {E T : Type} : CBResult E T → Bool
  | .circuitOpen _ _ => true
  | _ => false

namespace CircuitBreaker

/-- Constructor state: `CLOSED`, all counters zero, empty window. -/
def init (now : Int) : CircuitBreakerState :=
  { state := .CLOSED, failureCount := 0, successCount := 0, totalRequests := 0
    lastFailureTime := none, lastSuccessTime := none, nextAttemptTime := none
    startTime := now, failures := [] }

/-- `private getMetrics()`. -/
def getMetrics {E T : Type} (cfg : CircuitBreakerConfig E T) (now : Int)
    (s : CircuitBreakerState) : CircuitBreakerMetrics :=
  let recentFailures := s.failures.filter (fun f => now - cfg.monitoringPeriod < f)
  { state := s.state
    failureCount := s.failureCount
    successCount := s.successCount
    totalRequests := s.totalRequests
    lastFailureTime := s.lastFailureTime
    lastSuccessTime := s.lastSuccessTime
    nextAttemptTime := s.nextAttemptTime
    uptime := now - s.startTime
    failureRate :=
      if 0 < s.totalRequests then (recentFailures.length : Rat) / (s.totalRequests : Rat)
      else 0 }

/-- `private cleanupOldFailures()`: drop window entries at or before
`now - monitoringPeriod`; when anything was dropped, `failureCount` is
recomputed as the pruned window's length. -/
def cleanupOldFailures {E T : Type} (cfg : CircuitBreakerConfig E T) (now : Int)
    (s : CircuitBreakerState) : CircuitBreakerState :=
  let cutoff := now - cfg.monitoringPeriod
  let validFailures := s.failures.filter (fun f => cutoff < f)
  if validFailures.length ≠ s.failures.length then
    { s with failures := validFailures, failureCount := (validFailures.length : Int) }
  else
    s

/-- `private openCircuit()`. -/
def openCircuit {E T : Type} (cfg : CircuitBreakerConfig E T) (now : Int)
    (s : CircuitBreakerState) : CircuitBreakerState :=
  { s with state := .OPEN, nextAttemptTime := some (now + cfg.timeout) }

/-- `private reset()`: close the circuit and clear the counters. -/
def resetBreaker (s : CircuitBreakerState) : CircuitBreakerState :=
  { s with state := .CLOSED, failureCount := 0, successCount := 0
           nextAttemptTime := none, failures := [] }

/-- `private shouldAttemptReset()`. -/
def shouldAttemptReset (now : Int) (s : CircuitBreakerState) : Bool :=
  match s.nextAttemptTime with
  | some t => t ≤ now
  | none => false

/-- `private onSuccess()`. -/
def onSuccess {E T : Type} (cfg : CircuitBreakerConfig E T) (now : Int)
    (s : CircuitBreakerState) : CircuitBreakerState :=
  let s := { s with lastSuccessTime := some now, successCount := s.successCount + 1 }
  if s.state = .HALF_OPEN then
    if cfg.successThreshold ≤ s.successCount then resetBreaker s else s
  else if s.state = .CLOSED then
    cleanupOldFailures cfg now { s with failureCount := 0 }
  else
    s

/-- `private onFailure(error)`: a non-qualifying error (the configured
`isFailure` predicate returns `false`) is ignored entirely. -/
def onFailure {E T : Type} (cfg : CircuitBreakerConfig E T) (now : Int) (e : E)
    (s : CircuitBreakerState) : CircuitBreakerState :=
  match cfg.isFailure with
  | some p =>
      if p e = false then s else onQualifyingFailure cfg now s
  | none => onQualifyingFailure cfg now s
where
  /-- The body of `onFailure` past the predicate guard. -/
  onQualifyingFailure (cfg : CircuitBreakerConfig E T) (now : Int)
      (s : CircuitBreakerState) : CircuitBreakerState :=
    let s := { s with lastFailureTime := some now
                      failureCount := s.failureCount + 1
                      failures := s.failures ++ [now] }
    let s := cleanupOldFailures cfg now s
    if s.state = .CLOSED ∧ cfg.failureThreshold ≤ s.failureCount then
      openCircuit cfg now s
    else if s.state = .HALF_OPEN then
      openCircuit cfg now s
    else
      s

/-- Invoke the wrapped operation and run the matching handler. -/
def runOperation {E T : Type} (cfg : CircuitBreakerConfig E T) (now : Int)
    (op : Except E T) (s : CircuitBreakerState) :
    CBResult E T × CircuitBreakerState :=
  match op with
  | .ok t => (.ok t, onSuccess cfg now s)
  | .error e => (.opError e, onFailure cfg now e s)

/-- `execute(operation)`: count the request; in `OPEN` either move to
`HALF_OPEN` (cooldown over) or fast-fail with the fallback / a
`CircuitBreakerError`; otherwise invoke the operation. -/
def execute {E T : Type} (cfg : CircuitBreakerConfig E T) (now : Int)
    (op : Except E T) (s : CircuitBreakerState) :
    CBResult E T × CircuitBreakerState :=
  let s := { s with totalRequests := s.totalRequests + 1 }
  if s.state = .OPEN then
    if shouldAttemptReset now s then
      runOperation cfg now op { s with state := .HALF_OPEN, successCount := 0 }
    else
      match cfg.fallback with
      | some t => (.fallback t, s)
      | none => (.circuitOpen s.state (getMetrics cfg now s), s)
  else
    runOperation cfg now op s

/-- Post-state of one `execute` call. -/
def execState {E T : Type} (cfg : CircuitBreakerConfig E T) (now : Int)
    (op : Except E T) (s : CircuitBreakerState) : CircuitBreakerState :=
  (execute cfg now op s).2

end CircuitBreaker

/-! ## CacheManager (src/CacheManager.ts)

The `Map<string, CacheEntry<T>>` is embedded as an insertion-ordered
association list (JavaScript `Map` iterates in insertion order; `set`
of an existing key updates in place, a new key appends).  The byte
size computed by `calculateSize` (serialized JSON length) is opaque to
the model and becomes an explicit `size` argument of `set`. -/

inductive CacheStrategy where
  | TTL
  | LRU
  | WRITE_THROUGH
  | WRITE_BEHIND
  | READ_THROUGH
  deriving Repr, DecidableEq

structure CacheConfig where
  maxSize : Nat
  defaultTtl : Int
  strategy : CacheStrategy
  maxEntrySize : Option Int
  deriving Repr, DecidableEq

structure CacheEntry (T : Type) where
  value : T
  createdAt : Int
  expiresAt : Int
  lastAccessed : Int
  accessCount : Int
  size : Int
  key : String
  tags : List String
  deriving Repr, DecidableEq

/-- Mutable fields of a `CacheManager` instance (the metric counters
`hits`, `misses`, `evictions`, `expirations`; `size` and `memoryUsage`
are recomputed from `entries` on demand). -/
structure CacheState (T : Type) where
  entries : List (String × CacheEntry T)
  accessOrder : List String
  hits : Int
  misses : Int
  evictions : Int
  expirations : Int
  deriving Repr, DecidableEq

namespace CacheManager

/-- Constructor state: empty map, empty access order, zero counters. -/
def initCache (T : Type) : CacheState T :=
  { entries := [], accessOrder := [], hits := 0, misses := 0
    evictions := 0, expirations := 0 }

/-- `Map.get`. -/
def mapGet {T : Type} (k : String) (l : List (String × CacheEntry T)) :
    Option (CacheEntry T) :=
  (l.find? (fun p => p.1 = k)).map Prod.snd

/-- `Map.set`: replace in place when the key exists, else append. -/
def mapSet {T : Type} (k : String) (v : CacheEntry T)
    (l : List (String × CacheEntry T)) : List (String × CacheEntry T) :=
  if (l.find? (fun p => p.1 = k)).isSome then
    l.map (fun p => if p.1 = k then (k, v) else p)
  else
    l ++ [(k, v)]

/-- `Map.delete` (keys are unique in a `Map`). -/
def mapDelete {T : Type} (k : String) (l : List (String × CacheEntry T)) :
    List (String × CacheEntry T) :=
  l.filter (fun p => p.1 ≠ k)

/-- `private isExpired(entry)`. -/
def isExpired {T : Type} (now : Int) (e : CacheEntry T) : Bool :=
  e.expiresAt < now

/-- `private removeFromAccessOrder(key)`: remove the first occurrence. -/
def removeFromAccessOrder (k : String) (order : List String) : List String :=
  order.erase k

/-- `private updateAccessOrder(key)`: move the key to the
most-recently-used end. -/
def updateAccessOrder (k : String) (order : List String) : List String :=
  order.erase k ++ [k]

/-- One iteration of the `cleanup()` loop body. -/
def cleanupStep {T : Type} (now : Int) (acc : CacheState T)
    (p : String × CacheEntry T) : CacheState T :=
  if isExpired now p.2 then
    { acc with entries := mapDelete p.1 acc.entries
               accessOrder := removeFromAccessOrder p.1 acc.accessOrder
               expirations := acc.expirations + 1 }
  else acc

/-- `cleanup()`: delete every expired entry, counting expirations.  The
JavaScript loop iterates the map snapshot while deleting the visited
entry, which the fold over the snapshot reproduces. -/
def cleanup {T : Type} (now : Int) (s : CacheState T) : CacheState T :=
  s.entries.foldl (cleanupStep now) s

/-- `private evictEntry()`: under LRU evict `accessOrder[0]`, otherwise
the entry with the smallest `createdAt` (first wins ties).  The
JavaScript truthiness test `if (keyToEvict)` skips the eviction when
the chosen key is the empty string. -/
def evictEntry {T : Type} (cfg : CacheConfig) (s : CacheState T) : CacheState T :=
  let keyToEvict : Option String :=
    match cfg.strategy with
    | .LRU => s.accessOrder.head?
    | _ =>
        (s.entries.foldl
          (fun (best : Option (String × Int)) p =>
            match best with
            | some (_, t) => if p.2.createdAt < t then some (p.1, p.2.createdAt) else best
            | none => some (p.1, p.2.createdAt))
          none).map Prod.fst
  match keyToEvict with
  | some k =>
      if k = "" then s
      else
        { s with entries := mapDelete k s.entries
                 accessOrder := removeFromAccessOrder k s.accessOrder
                 evictions := s.evictions + 1 }
  | none => s

/-- The `while (this.cache.size >= this.config.maxSize)` eviction loop
of `ensureSpace`, as structural recursion on a fuel that dominates the
number of possible evictions; when `evictEntry` removes nothing the
source loops forever, the model stops. -/
def evictLoop {T : Type} (cfg : CacheConfig) : Nat → CacheState T → CacheState T
  | 0, s => s
  | n + 1, s =>
      if cfg.maxSize ≤ s.entries.length then
        let s1 := evictEntry cfg s
        if s1.entries.length < s.entries.length then evictLoop cfg n s1 else s1
      else s

/-- `private ensureSpace()`: purge expired entries, then evict while at
or above capacity. -/
def ensureSpace {T : Type} (cfg : CacheConfig) (now : Int) (s : CacheState T) :
    CacheState T :=
  let s := cleanup now s
  evictLoop cfg (s.entries.length + 1) s

/-- `options.ttl || this.config.defaultTtl` (JavaScript `||`: a ttl of
0 falls back to the default). -/
def resolveTtl (cfg : CacheConfig) (ttl : Option Int) : Int :=
  match ttl with
  | some t => if t = 0 then cfg.defaultTtl else t
  | none => cfg.defaultTtl

/-- The oversize check
`this.config.maxEntrySize && size > this.config.maxEntrySize`
(JavaScript `&&`: an absent or zero `maxEntrySize` disables the
check). -/
def entryTooLarge (cfg : CacheConfig) (size : Int) : Bool :=
  match cfg.maxEntrySize with
  | some m => m ≠ 0 ∧ m < size
  | none => false

/-- The body of `set` past the `maxEntrySize` guard: ensure space,
insert the entry, record the access under LRU. -/
def setEntry {T : Type} (cfg : CacheConfig) (key : String) (value : T)
    (size : Int) (ttl : Option Int) (tags : List String) (now : Int)
    (s : CacheState T) : CacheState T :=
  let s := ensureSpace cfg now s
  let entry : CacheEntry T :=
    { value := value, createdAt := now, expiresAt := now + resolveTtl cfg ttl
      lastAccessed := now, accessCount := 0, size := size, key := key
      tags := tags }
  let s := { s with entries := mapSet key entry s.entries }
  if cfg.strategy = .LRU then
    { s with accessOrder := updateAccessOrder key s.accessOrder }
  else s

/-- `set(key, value, options)` with the serialized `size` passed
explicitly; rejects oversized entries, ensures space, inserts, and
under LRU records the access. -/
def set {T : Type} (cfg : CacheConfig) (key : String) (value : T) (size : Int)
    (ttl : Option Int) (tags : List String) (now : Int) (s : CacheState T) :
    CacheState T :=
  if entryTooLarge cfg size then s
  else setEntry cfg key value size ttl tags now s

/-- `get(key)`: miss on absence, lazy-delete-and-miss on expiry, else
update the access bookkeeping and hit. -/
def get {T : Type} (cfg : CacheConfig) (key : String) (now : Int)
    (s : CacheState T) : Option T × CacheState T :=
  match mapGet key s.entries with
  | none => (none, { s with misses := s.misses + 1 })
  | some e =>
      if isExpired now e then
        (none,
         { s with entries := mapDelete key s.entries
                  accessOrder := removeFromAccessOrder key s.accessOrder
                  expirations := s.expirations + 1
                  misses := s.misses + 1 })
      else
        let e1 := { e with lastAccessed := now, accessCount := e.accessCount + 1 }
        let s := { s with entries := mapSet key e1 s.entries }
        let s :=
          if cfg.strategy = .LRU then
            { s with accessOrder := updateAccessOrder key s.accessOrder }
          else s
        (some e.value, { s with hits := s.hits + 1 })

/-- `has(key)`: present and not expired. -/
def hasKey {T : Type} (key : String) (now : Int) (s : CacheState T) : Bool :=
  match mapGet key s.entries with
  | some e => !isExpired now e
  | none => false

/-- Does an entry's tag set intersect the given tags
(`entry.tags.some((tag) => tags.includes(tag))`)? -/
def tagsMatch {T : Type} (tags : List String) (e : CacheEntry T) : Bool :=
  e.tags.any (fun t => tags.contains t)

/-- One iteration of the `invalidateByTags` loop body. -/
def invalidateStep {T : Type} (tags : List String) (acc : Nat × CacheState T)
    (p : String × CacheEntry T) : Nat × CacheState T :=
  if tagsMatch tags p.2 then
    (acc.1 + 1,
     { acc.2 with entries := mapDelete p.1 acc.2.entries
                  accessOrder := removeFromAccessOrder p.1 acc.2.accessOrder })
  else acc

/-- `invalidateByTags(tags)`: delete every entry whose tag set
intersects `tags`, returning how many were removed. -/
def invalidateByTags {T : Type} (tags : List String) (s : CacheState T) :
    Nat × CacheState T :=
  s.entries.foldl (invalidateStep tags) (0, s)

end CacheManager

/-! ### Concrete breaker scenarios -/

/-- The spec scenario breaker: `failureThreshold = 5`,
`successThreshold = 3`, `timeout = 60000` (monitoring period wide
enough that no scenario failure leaves the window). -/
def c3cfg : CircuitBreakerConfig Unit Int := ⟨5, 3, 60000, 200000, none, none⟩

/-- One `execute` whose wrapped operation fails (qualifying). -/
def c3fail (t : Int) (s : CircuitBreakerState) : CircuitBreakerState :=
  CircuitBreaker.execState c3cfg t (Except.error ()) s

/-- One `execute` whose wrapped operation succeeds. -/
def c3ok (t : Int) (s : CircuitBreakerState) : CircuitBreakerState :=
  CircuitBreaker.execState c3cfg t (Except.ok 0) s

/-- The breaker after five qualifying failures at 0..40ms. -/
def c3s5 : CircuitBreakerState :=
  c3fail 40 (c3fail 30 (c3fail 20 (c3fail 10 (c3fail 0 (CircuitBreaker.init 0)))))

/-- The breaker after the trial call that reopens the half-open
circuit: one success at the end of the cooldown. -/
def c3s6 : CircuitBreakerState := c3ok 60040 c3s5

/-- A breaker used to exhibit the closed-state success handler:
`failureThreshold = 3`, `monitoringPeriod = 100`. -/
def c2cfg : CircuitBreakerConfig Unit Int := ⟨3, 2, 1000, 100, none, none⟩

/-- Two qualifying failures at 0ms and 50ms while `CLOSED`, then a
successful call at 120ms (the failure at 0ms is now stale, the one at
50ms is not). -/
def c2final : CircuitBreakerState :=
  CircuitBreaker.execState c2cfg 120 (Except.ok 0)
    (CircuitBreaker.execState c2cfg 50 (Except.error ())
      (CircuitBreaker.execState c2cfg 0 (Except.error ()) (CircuitBreaker.init 0)))

/-- A breaker with no fallback used to witness the open-state
behaviour of `execute`. -/
def c6cfg : CircuitBreakerConfig Unit Int := ⟨3, 2, 1000, 100, none, none⟩

/-- An `OPEN` breaker whose cooldown ends at 100ms. -/
def c6open : CircuitBreakerState :=
  { state := .OPEN, failureCount := 3, successCount := 0, totalRequests := 3
    lastFailureTime := some 0, lastSuccessTime := none
    nextAttemptTime := some 100, startTime := 0, failures := [0] }

/-- A breaker whose `isFailure` predicate rejects every error. -/
def c9cfg : CircuitBreakerConfig Unit Int :=
  ⟨3, 2, 1000, 100, some (fun _ => false), none⟩

/-- An `OPEN` breaker whose cooldown has already expired. -/
def c9open : CircuitBreakerState :=
  { state := .OPEN, failureCount := 3, successCount := 0, totalRequests := 3
    lastFailureTime := some 0, lastSuccessTime := none
    nextAttemptTime := some 0, startTime := 0, failures := [0] }

/-! ### Concrete cache scenarios -/

/-- The spec scenario cache: `maxSize = 2`, LRU eviction, a TTL ample
enough that nothing expires during the scenario. -/
def c4cfg : CacheConfig :=
  { maxSize := 2, defaultTtl := 10000, strategy := .LRU, maxEntrySize := none }

/-- Insert A (t = 0) and B (t = 1), read A (t = 2), insert C (t = 3). -/
def c4afterGetA : CacheState Int :=
  (CacheManager.get c4cfg "A" 2
    (CacheManager.set c4cfg "B" 2 1 none [] 1
      (CacheManager.set c4cfg "A" 1 1 none [] 0
        (CacheManager.initCache Int)))).2

/-- The cache after the final insertion of C. -/
def c4final : CacheState Int :=
  CacheManager.set c4cfg "C" 3 1 none [] 3 c4afterGetA

/-- A store with one entry tagged `user:1` and one entry tagged
`other`. -/
def c8store : CacheState Int :=
  { entries :=
      [("k1", ⟨1, 0, 1000, 0, 0, 1, "k1", ["user:1"]⟩),
       ("k2", ⟨2, 0, 1000, 0, 0, 1, "k2", ["other"]⟩)]
    accessOrder := ["k1", "k2"]
    hits := 0, misses := 0, evictions := 0, expirations := 0 }

/-- An LRU cache configuration with `maxSize = 2` and an ample TTL. -/
def c10cfg : CacheConfig :=
  { maxSize := 2, defaultTtl := 10000, strategy := .LRU, maxEntrySize := none }

/-- A full (`maxSize = 2`) LRU store holding live entries A and B, with
A least recently used. -/
def c10store : CacheState Int :=
  { entries :=
      [("A", ⟨1, 0, 1000, 0, 0, 1, "A", []⟩),
       ("B", ⟨2, 0, 1000, 0, 0, 1, "B", []⟩)]
    accessOrder := ["A", "B"]
    hits := 0, misses := 0, evictions := 0, expirations := 0 }

theorem rl_refill_preserves_inv (o : RateLimitOptions) (now : Int)
    (s : RateLimiterState) (hcap : 0 ≤ o.maxRequests) (hw : 0 < o.windowMs)
    (h : RateLimiter.Inv o s) : RateLimiter.Inv o (RateLimiter.refillTokens o now s) := by
  unfold RateLimiter.refillTokens
  obtain ⟨h0, h1⟩ := h
  dsimp only
  split
  · rename_i hcond
    constructor
    · have hdiv : 0 ≤ Int.fdiv (now - s.lastRefill) o.windowMs := by
        apply Int.fdiv_nonneg _ (le_of_lt hw)
        exact le_trans (le_of_lt hw) hcond
      have : 0 ≤ s.tokens + Int.fdiv (now - s.lastRefill) o.windowMs * o.maxRequests := by
        have := mul_nonneg hdiv hcap
        omega
      exact le_min hcap this
    · exact min_le_left _ _
  · exact ⟨h0, h1⟩

theorem rl_check_preserves_inv (o : RateLimitOptions) (now : Int)
    (s : RateLimiterState) (hcap : 0 ≤ o.maxRequests) (hw : 0 < o.windowMs)
    (h : RateLimiter.Inv o s) :
    RateLimiter.Inv o (RateLimiter.checkLimit o now s).2 := by
  have hr := rl_refill_preserves_inv o now s hcap hw h
  unfold RateLimiter.checkLimit
  obtain ⟨h0, h1⟩ := hr
  dsimp only
  split
  · rename_i hpos
    refine ⟨?_, ?_⟩ <;> dsimp only <;> omega
  · exact ⟨h0, h1⟩

theorem rl_applyOp_preserves_inv (o : RateLimitOptions)
    (hcap : 0 ≤ o.maxRequests) (hw : 0 < o.windowMs)
    (s : RateLimiterState) (op : RateLimiter.Op)
    (h : RateLimiter.Inv o s) : RateLimiter.Inv o (RateLimiter.applyOp o s op) := by
  cases op with
  | check now => exact rl_check_preserves_inv o now s hcap hw h
  | status now =>
      show RateLimiter.Inv o (RateLimiter.refillTokens o now s)
      exact rl_refill_preserves_inv o now s hcap hw h
  | headers now => exact rl_refill_preserves_inv o now s hcap hw h
  | doReset now => exact ⟨hcap, le_refl _⟩
  | execAttempts ts =>
      induction ts generalizing s with
      | nil => exact h
      | cons t ts ih =>
          have h1 := rl_check_preserves_inv o t s hcap hw h
          exact ih _ h1

theorem rl_applyOps_preserves_inv (o : RateLimitOptions)
    (hcap : 0 ≤ o.maxRequests) (hw : 0 < o.windowMs)
    (s : RateLimiterState) (ops : List RateLimiter.Op)
    (h : RateLimiter.Inv o s) : RateLimiter.Inv o (RateLimiter.applyOps o s ops) := by
  induction ops generalizing s with
  | nil => exact h
  | cons op ops ih =>
      exact ih _ (rl_applyOp_preserves_inv o hcap hw s op h)

/-- C5: for every sequence of limiter operations (admission checks,
guarded executions, status reads, header reads, resets) at arbitrary
instants, the token count stays within `0 ≤ tokensRemaining ≤
maxRequests`. -/
theorem c5_tokens_invariant (o : RateLimitOptions) (now0 : Int)
    (ops : List RateLimiter.Op)
    (hcap : 0 ≤ o.maxRequests) (hw : 0 < o.windowMs) :
    0 ≤ (RateLimiter.applyOps o (RateLimiter.init o now0) ops).tokens ∧
    (RateLimiter.applyOps o (RateLimiter.init o now0) ops).tokens ≤ o.maxRequests :=
  rl_applyOps_preserves_inv o hcap hw _ ops ⟨hcap, le_refl _⟩

/-- Witness for C5 at a concrete limiter and operation sequence. -/
theorem c5_witness :
    0 ≤ (RateLimiter.applyOps ⟨2, 1000⟩ (RateLimiter.init ⟨2, 1000⟩ 0)
          [.check 0, .check 1, .check 2, .status 800, .execAttempts [1200, 1300],
           .headers 1500, .doReset 2000, .check 2500]).tokens ∧
    (RateLimiter.applyOps ⟨2, 1000⟩ (RateLimiter.init ⟨2, 1000⟩ 0)
          [.check 0, .check 1, .check 2, .status 800, .execAttempts [1200, 1300],
           .headers 1500, .doReset 2000, .check 2500]).tokens ≤ 2 :=
  c5_tokens_invariant ⟨2, 1000⟩ 0 _ (by decide) (by decide)

/-- C1 (counterexample): with `maxRequests = 10`, `windowMs = 1000`,
`lastRefillAt = 0` and a check at `now = 1500` (elapsed = 1.5 windows),
the refill does not advance `lastRefillAt` by the consumed whole
windows (to 1000): it sets it to 1500, the current time. -/
theorem c1_counterexample :
    ¬ ((RateLimiter.refillTokens ⟨10, 1000⟩ 1500 ⟨0, 0⟩).lastRefill =
        0 + Int.fdiv (1500 - 0) 1000 * 1000) := by decide

/-- C1 (amended): whenever at least one full window has elapsed, the
refill performed at the start of `checkLimit` sets the token count to
`min (maxRequests) (tokens + floor (elapsed / windowMs) * maxRequests)`
and sets `lastRefillAt` to the current time (discarding the fractional
remainder of the window, rather than advancing by whole windows). -/
theorem c1_refill_formula (o : RateLimitOptions) (s : RateLimiterState)
    (now : Int) (h : o.windowMs ≤ now - s.lastRefill) :
    RateLimiter.refillTokens o now s =
      { tokens := min o.maxRequests
          (s.tokens + Int.fdiv (now - s.lastRefill) o.windowMs * o.maxRequests)
        lastRefill := now } := by
  unfold RateLimiter.refillTokens
  rw [if_pos h]

/-- Witness for C1 (amended) at elapsed = 1.5 windows. -/
theorem c1_witness :
    RateLimiter.refillTokens ⟨10, 1000⟩ 1500 ⟨0, 0⟩ =
      { tokens := min 10 (0 + Int.fdiv (1500 - 0) 1000 * 10)
        lastRefill := 1500 } :=
  c1_refill_formula ⟨10, 1000⟩ ⟨0, 0⟩ 1500 (by decide)

/-- C7 (counterexample): `getStatus` is not a pure read of the private
state: with `maxRequests = 2`, `windowMs = 1000`, one token left and
`lastRefillAt = 0`, a `getStatus` at `now = 1000` refills the bucket,
changing `tokensRemaining` from 1 to 2 and `lastRefillAt` from 0 to
1000. -/
theorem c7_counterexample :
    ¬ ((RateLimiter.getStatus ⟨2, 1000⟩ 1000 ⟨1, 0⟩).2 =
        RateLimiterState.mk 1 0) := by decide

/-- C7 (amended): `getStatus` never consumes a token: its only effect
on the private state is the same refill recomputation every admission
check performs, it reports the refilled token count and reset time,
and when less than one window has elapsed since `lastRefillAt` it
leaves the state entirely unchanged. -/
theorem c7_getStatus_no_consume (o : RateLimitOptions) (s : RateLimiterState)
    (now : Int) :
    (RateLimiter.getStatus o now s).2 = RateLimiter.refillTokens o now s ∧
    (RateLimiter.getStatus o now s).1.tokensRemaining =
      (RateLimiter.refillTokens o now s).tokens ∧
    (RateLimiter.getStatus o now s).1.resetTime =
      RateLimiter.getResetTime o now (RateLimiter.refillTokens o now s) ∧
    (now - s.lastRefill < o.windowMs → (RateLimiter.getStatus o now s).2 = s) := by
  refine ⟨rfl, rfl, rfl, ?_⟩
  intro h
  show RateLimiter.refillTokens o now s = s
  unfold RateLimiter.refillTokens
  rw [if_neg (by omega)]

/-- Witness for C7 (amended): within the window, `getStatus` leaves the
state unchanged. -/
theorem c7_witness :
    (RateLimiter.getStatus ⟨2, 1000⟩ 500 ⟨1, 0⟩).2 = RateLimiterState.mk 1 0 :=
  (c7_getStatus_no_consume ⟨2, 1000⟩ ⟨1, 0⟩ 500).2.2.2 (by decide)

/-- C3: with `{failureThreshold = 5, successThreshold = 3, timeout =
60000}`, five qualifying failures in `CLOSED` open the circuit with
`nextAttemptTime` 60000ms after the fifth failure; an `execute` before
that instant fails fast with a `CircuitBreakerError` and runs no
handler (only `totalRequests` moves), for any operation outcome; an
`execute` at the cooldown instant moves to `HALF_OPEN` and invokes the
operation (its result is returned); two further successes (three
consecutive in `HALF_OPEN`) close the circuit and reset the counters;
a single qualifying failure in `HALF_OPEN` reopens it with a fresh
`nextAttemptTime`. -/
theorem c3_breaker_scenario :
    (c3s5.state = CircuitState.OPEN ∧ c3s5.nextAttemptTime = some 60040) ∧
    (∀ op : Except Unit Int,
      (CircuitBreaker.execute c3cfg 50000 op c3s5).1.isCircuitOpen = true ∧
      (CircuitBreaker.execute c3cfg 50000 op c3s5).2 =
        { c3s5 with totalRequests := 6 }) ∧
    ((CircuitBreaker.execute c3cfg 60040 (Except.ok 7) c3s5).1 =
        CBResult.ok 7 ∧
      c3s6.state = CircuitState.HALF_OPEN ∧ c3s6.successCount = 1) ∧
    ((c3ok 60060 (c3ok 60050 c3s6)).state = CircuitState.CLOSED ∧
      (c3ok 60060 (c3ok 60050 c3s6)).failureCount = 0 ∧
      (c3ok 60060 (c3ok 60050 c3s6)).successCount = 0) ∧
    ((c3fail 60100 c3s6).state = CircuitState.OPEN ∧
      (c3fail 60100 c3s6).nextAttemptTime = some 120100) := by
  refine ⟨by decide, ?_, by decide, by decide, by decide⟩
  intro op
  cases op with
  | ok t => exact ⟨rfl, rfl⟩
  | error e => exact ⟨rfl, rfl⟩

/-- C2 (code evaluated at the failing input): a `CLOSED` breaker with
`monitoringPeriod = 100` that recorded qualifying failures at 0ms and
50ms finishes a successful `execute` at 120ms with `failureCount = 1`,
not 0: `onSuccess` zeroes the counter but `cleanupOldFailures` then
recomputes it as the length of the pruned window (here `[50]`). -/
theorem c2_code_bug_eval :
    c2final.state = CircuitState.CLOSED ∧
    c2final.failures = [50] ∧
    c2final.failureCount = 1 := by decide

/-- C6: for every `OPEN` breaker with cooldown end `t`, an `execute` at
`now ≥ t` transitions to `HALF_OPEN` (trial successes start at 0) and
invokes the operation, while an `execute` at `now < t` does not invoke
the operation and either returns the configured fallback's result or
fails with a `CircuitBreakerError` carrying the current (`OPEN`) state
and a metrics snapshot; in both fast-fail cases only `totalRequests`
moves. -/
theorem c6_open_behavior {E T : Type} (cfg : CircuitBreakerConfig E T)
    (s : CircuitBreakerState) (now t : Int) (op : Except E T)
    (hs : s.state = CircuitState.OPEN) (hn : s.nextAttemptTime = some t) :
    (t ≤ now →
      CircuitBreaker.execute cfg now op s =
        CircuitBreaker.runOperation cfg now op
          { s with totalRequests := s.totalRequests + 1
                   state := CircuitState.HALF_OPEN
                   successCount := 0 }) ∧
    (now < t →
      CircuitBreaker.execute cfg now op s =
        match cfg.fallback with
        | some v =>
            (CBResult.fallback v, { s with totalRequests := s.totalRequests + 1 })
        | none =>
            (CBResult.circuitOpen CircuitState.OPEN
               (CircuitBreaker.getMetrics cfg now
                 { s with totalRequests := s.totalRequests + 1 }),
             { s with totalRequests := s.totalRequests + 1 })) := by
  obtain ⟨st, fc, sc, tr, lf, ls, na, stt, fl⟩ := s
  simp only at hs hn
  subst hs hn
  constructor
  · intro hle
    simp [CircuitBreaker.execute, CircuitBreaker.shouldAttemptReset, hle]
  · intro hlt
    simp [CircuitBreaker.execute, CircuitBreaker.shouldAttemptReset,
      not_le.mpr hlt]

/-- Witness for C6: the cooldown of `c6open` ends at 100ms; a call at
150ms transitions to `HALF_OPEN` and invokes the operation. -/
theorem c6_witness :
    CircuitBreaker.execute c6cfg 150 (Except.ok (7 : Int)) c6open =
      CircuitBreaker.runOperation c6cfg 150 (Except.ok 7)
        { c6open with totalRequests := c6open.totalRequests + 1
                      state := CircuitState.HALF_OPEN
                      successCount := 0 } :=
  (c6_open_behavior c6cfg c6open 150 100 (Except.ok 7) rfl rfl).1 (by decide)

/-- C9 (counterexample): for an `OPEN` breaker whose cooldown has
expired, an `execute` whose operation throws a non-qualifying error
(the predicate returns `false`) does NOT leave the breaker state
unchanged: the call first performs the `OPEN → HALF_OPEN` transition,
so the breaker ends in `HALF_OPEN` although it started `OPEN`. -/
theorem c9_counterexample :
    (CircuitBreaker.execState c9cfg 5 (Except.error ()) c9open).state =
        CircuitState.HALF_OPEN ∧
    c9open.state = CircuitState.OPEN := by decide

/-- C9 (amended): for every breaker in the `CLOSED` or `HALF_OPEN`
state (so the call invokes the operation without first transitioning),
an error rejected by the configured `isFailure` predicate is rethrown
and, of the breaker's bookkeeping, only `totalRequests` is
incremented. -/
theorem c9_nonqualifying_frame {E T : Type} (cfg : CircuitBreakerConfig E T)
    (p : E → Bool) (s : CircuitBreakerState) (now : Int) (e : E)
    (hp : cfg.isFailure = some p) (hpe : p e = false)
    (hs : s.state ≠ CircuitState.OPEN) :
    CircuitBreaker.execute cfg now (Except.error e) s =
      (CBResult.opError e, { s with totalRequests := s.totalRequests + 1 }) := by
  have hs' : ({ s with totalRequests := s.totalRequests + 1 }).state ≠
      CircuitState.OPEN := hs
  unfold CircuitBreaker.execute
  rw [if_neg hs']
  unfold CircuitBreaker.runOperation CircuitBreaker.onFailure
  rw [hp]
  simp [hpe]

/-- Witness for C9 (amended): a freshly constructed (`CLOSED`) breaker
whose predicate rejects every error rethrows the error and only counts
the request. -/
theorem c9_witness :
    CircuitBreaker.execute c9cfg 7 (Except.error ()) (CircuitBreaker.init 0) =
      (CBResult.opError (),
       { CircuitBreaker.init 0 with
           totalRequests := (CircuitBreaker.init 0).totalRequests + 1 }) :=
  c9_nonqualifying_frame c9cfg (fun _ => false) (CircuitBreaker.init 0) 7 ()
    rfl rfl (by decide)

/-- C4: on a `maxSize = 2` LRU cache, after set A, set B, get A (a hit
returning A's value, before any expiry), set C: B has been evicted
(one eviction recorded) while A and C remain present. -/
theorem c4_lru_scenario :
    (CacheManager.get c4cfg "A" 2
        (CacheManager.set c4cfg "B" 2 1 none [] 1
          (CacheManager.set c4cfg "A" 1 1 none [] 0
            (CacheManager.initCache Int)))).1 = some 1 ∧
    CacheManager.hasKey "A" 4 c4final = true ∧
    CacheManager.hasKey "C" 4 c4final = true ∧
    CacheManager.hasKey "B" 4 c4final = false ∧
    CacheManager.mapGet "B" c4final.entries = none ∧
    c4final.evictions = 1 := by decide

theorem foldl_cleanupStep_id {T : Type} (now : Int)
    (l : List (String × CacheEntry T)) (acc : CacheState T)
    (h : ∀ p ∈ l, CacheManager.isExpired now p.2 = false) :
    l.foldl (CacheManager.cleanupStep now) acc = acc := by
  induction l generalizing acc with
  | nil => rfl
  | cons p l ih =>
      rw [List.foldl_cons]
      have hstep : CacheManager.cleanupStep now acc p = acc := by
        simp [CacheManager.cleanupStep, h p (List.mem_cons_self p l)]
      rw [hstep]
      exact ih acc (fun q hq => h q (List.mem_cons_of_mem _ hq))

theorem cleanup_of_no_expired {T : Type} (now : Int) (s : CacheState T)
    (h : ∀ p ∈ s.entries, CacheManager.isExpired now p.2 = false) :
    CacheManager.cleanup now s = s :=
  foldl_cleanupStep_id now s.entries s h

theorem mapDelete_eq_self {T : Type} (k : String)
    (l : List (String × CacheEntry T)) (h : k ∉ l.map Prod.fst) :
    CacheManager.mapDelete k l = l := by
  unfold CacheManager.mapDelete
  apply List.filter_eq_self.mpr
  intro p hp
  simp only [ne_eq, decide_eq_true_eq]
  intro hpk
  exact h (hpk ▸ List.mem_map_of_mem Prod.fst hp)

theorem mapDelete_middle {T : Type} (k : String) (e : CacheEntry T)
    (done l : List (String × CacheEntry T))
    (hnd : ((done ++ (k, e) :: l).map Prod.fst).Nodup) :
    CacheManager.mapDelete k (done ++ (k, e) :: l) = done ++ l := by
  rw [List.map_append, List.map_cons] at hnd
  have hdone : k ∉ done.map Prod.fst := by
    intro hmem
    exact (List.disjoint_of_nodup_append hnd) hmem (List.mem_cons_self _ _)
  have hl : k ∉ l.map Prod.fst := by
    intro hmem
    exact ((List.nodup_cons.mp (List.Nodup.of_append_right hnd)).1) hmem
  have h1 := mapDelete_eq_self k done hdone
  have h2 := mapDelete_eq_self k l hl
  unfold CacheManager.mapDelete at h1 h2 ⊢
  rw [List.filter_append, h1, List.filter_cons]
  simp [h2]
  intro a b hab hak
  exact hl (hak ▸ List.mem_map_of_mem Prod.fst hab)

theorem mapDelete_length {T : Type} (k : String)
    (l : List (String × CacheEntry T))
    (hnd : (l.map Prod.fst).Nodup) (hmem : k ∈ l.map Prod.fst) :
    (CacheManager.mapDelete k l).length + 1 = l.length := by
  induction l with
  | nil => simp at hmem
  | cons p l ih =>
      rw [List.map_cons, List.nodup_cons] at hnd
      unfold CacheManager.mapDelete
      rw [List.filter_cons]
      split
      · rename_i hc
        have hk : p.1 ≠ k := by simpa using hc
        have hmem' : k ∈ l.map Prod.fst := by
          rcases List.mem_cons.mp hmem with h | h
          · exact absurd h.symm hk
          · exact h
        have ihl := ih hnd.2 hmem'
        unfold CacheManager.mapDelete at ihl
        simp only [List.length_cons]
        omega
      · rename_i hc
        have hk : p.1 = k := by simpa using hc
        have hknotl : k ∉ l.map Prod.fst := hk ▸ hnd.1
        have h2 := mapDelete_eq_self k l hknotl
        unfold CacheManager.mapDelete at h2
        rw [h2]
        simp

theorem invalidate_foldl_spec {T : Type} (tags : List String)
    (l : List (String × CacheEntry T)) :
    ∀ (done : List (String × CacheEntry T)) (n : Nat) (s : CacheState T),
    s.entries = done ++ l →
    ((done ++ l).map Prod.fst).Nodup →
    (l.foldl (CacheManager.invalidateStep tags) (n, s)).1 =
      n + (l.filter (fun p => CacheManager.tagsMatch tags p.2)).length ∧
    (l.foldl (CacheManager.invalidateStep tags) (n, s)).2.entries =
      done ++ l.filter (fun p => !CacheManager.tagsMatch tags p.2) := by
  induction l with
  | nil =>
      intro done n s hse _
      simp [hse]
  | cons p l ih =>
      intro done n s hse hnd
      obtain ⟨k, e⟩ := p
      rw [List.foldl_cons]
      by_cases hm : CacheManager.tagsMatch tags e = true
      · have hstep : CacheManager.invalidateStep tags (n, s) (k, e) =
            (n + 1,
             { s with entries := CacheManager.mapDelete k s.entries
                      accessOrder := CacheManager.removeFromAccessOrder k s.accessOrder }) := by
          simp [CacheManager.invalidateStep, hm]
        rw [hstep]
        have hdel : CacheManager.mapDelete k s.entries = done ++ l := by
          rw [hse]
          exact mapDelete_middle k e done l hnd
        have hnd' : ((done ++ l).map Prod.fst).Nodup := by
          refine List.Nodup.sublist (List.Sublist.map Prod.fst ?_) hnd
          exact List.Sublist.append_left ((List.Sublist.refl l).cons (k, e)) done
        have ihr := ih done (n + 1)
          { s with entries := CacheManager.mapDelete k s.entries
                   accessOrder := CacheManager.removeFromAccessOrder k s.accessOrder }
          hdel hnd'
        refine ⟨?_, ?_⟩
        · rw [ihr.1, List.filter_cons]
          simp [hm]
          omega
        · rw [ihr.2, List.filter_cons]
          simp [hm]
      · have hstep : CacheManager.invalidateStep tags (n, s) (k, e) = (n, s) := by
          simp [CacheManager.invalidateStep, hm]
        rw [hstep]
        have hse' : s.entries = (done ++ [(k, e)]) ++ l := by
          rw [hse]; simp
        have hnd' : (((done ++ [(k, e)]) ++ l).map Prod.fst).Nodup := by
          simpa using hnd
        have ihr := ih (done ++ [(k, e)]) n s hse' hnd'
        refine ⟨?_, ?_⟩
        · rw [ihr.1, List.filter_cons]
          simp [hm]
        · rw [ihr.2, List.filter_cons]
          simp [hm]

/-- C8: `invalidateByTags` removes exactly the entries whose tag set
intersects the given tags (the surviving entries are precisely the
non-intersecting ones, untouched and in order), returns the number of
entries removed, and a second call on the resulting store returns 0. -/
theorem c8_invalidate_by_tags {T : Type} (tags : List String)
    (s : CacheState T) (hnd : (s.entries.map Prod.fst).Nodup) :
    (CacheManager.invalidateByTags tags s).2.entries =
      s.entries.filter (fun p => !CacheManager.tagsMatch tags p.2) ∧
    (CacheManager.invalidateByTags tags s).1 =
      (s.entries.filter (fun p => CacheManager.tagsMatch tags p.2)).length ∧
    (CacheManager.invalidateByTags tags
        (CacheManager.invalidateByTags tags s).2).1 = 0 := by
  have h1 := invalidate_foldl_spec tags s.entries [] 0 s rfl (by simpa using hnd)
  have hents : (CacheManager.invalidateByTags tags s).2.entries =
      s.entries.filter (fun p => !CacheManager.tagsMatch tags p.2) := by
    simpa [CacheManager.invalidateByTags] using h1.2
  refine ⟨hents, by simpa [CacheManager.invalidateByTags] using h1.1, ?_⟩
  have hnd2 : ((CacheManager.invalidateByTags tags s).2.entries.map Prod.fst).Nodup := by
    rw [hents]
    exact List.Nodup.sublist (List.Sublist.map Prod.fst (List.filter_sublist _)) hnd
  have h2 := invalidate_foldl_spec tags
    (CacheManager.invalidateByTags tags s).2.entries [] 0
    (CacheManager.invalidateByTags tags s).2 rfl (by simpa using hnd2)
  have hz : ((CacheManager.invalidateByTags tags s).2.entries.filter
      (fun p => CacheManager.tagsMatch tags p.2)).length = 0 := by
    rw [hents, List.filter_filter]
    simp
  have hun : CacheManager.invalidateByTags tags
      (CacheManager.invalidateByTags tags s).2 =
      List.foldl (CacheManager.invalidateStep tags)
        (0, (CacheManager.invalidateByTags tags s).2)
        (CacheManager.invalidateByTags tags s).2.entries := rfl
  rw [hun, h2.1, hz]

/-- Witness for C8: on a store with one `user:1`-tagged entry and one
`other`-tagged entry, invalidating `user:1` removes exactly the first,
returns 1, and a repeat call returns 0. -/
theorem c8_witness :
    (CacheManager.invalidateByTags ["user:1"] c8store).2.entries =
      c8store.entries.filter
        (fun p => !CacheManager.tagsMatch ["user:1"] p.2) ∧
    (CacheManager.invalidateByTags ["user:1"] c8store).1 =
      (c8store.entries.filter
        (fun p => CacheManager.tagsMatch ["user:1"] p.2)).length ∧
    (CacheManager.invalidateByTags ["user:1"]
        (CacheManager.invalidateByTags ["user:1"] c8store).2).1 = 0 :=
  c8_invalidate_by_tags ["user:1"] c8store (by decide)

theorem evictLoop_succ {T : Type} (cfg : CacheConfig) (n : Nat)
    (s : CacheState T) :
    CacheManager.evictLoop cfg (n + 1) s =
      if cfg.maxSize ≤ s.entries.length then
        if (CacheManager.evictEntry cfg s).entries.length < s.entries.length then
          CacheManager.evictLoop cfg n (CacheManager.evictEntry cfg s)
        else CacheManager.evictEntry cfg s
      else s := rfl

theorem evictEntry_lru {T : Type} (cfg : CacheConfig) (s : CacheState T)
    (k0 : String) (hstrat : cfg.strategy = CacheStrategy.LRU)
    (hho : s.accessOrder.head? = some k0) (hk0ne : k0 ≠ "") :
    CacheManager.evictEntry cfg s =
      { s with entries := CacheManager.mapDelete k0 s.entries
               accessOrder := CacheManager.removeFromAccessOrder k0 s.accessOrder
               evictions := s.evictions + 1 } := by
  unfold CacheManager.evictEntry
  rw [hstrat]
  simp only [hho]
  rw [if_neg hk0ne]

/-- C10: on a full (`entries.length = maxSize`) LRU store of live
entries, `set` with an already-present key still evicts the
least-recently-used key `k0` (the head of the access order, which may
differ from the overwritten key) and counts one eviction before
overwriting: afterwards `evictions` has grown by one and the map is
the old map with `k0` deleted and the new entry written under `key`. -/
theorem c10_overwrite_on_full_evicts_lru {T : Type} (cfg : CacheConfig)
    (s : CacheState T) (key : String) (value : T) (size : Int)
    (ttl : Option Int) (tags : List String) (now : Int) (k0 : String)
    (hstrat : cfg.strategy = CacheStrategy.LRU)
    (hfull : s.entries.length = cfg.maxSize)
    (hlive : ∀ p ∈ s.entries, CacheManager.isExpired now p.2 = false)
    (hnd : (s.entries.map Prod.fst).Nodup)
    (hkey : key ∈ s.entries.map Prod.fst)
    (hsz : CacheManager.entryTooLarge cfg size = false)
    (hho : s.accessOrder.head? = some k0)
    (hk0ne : k0 ≠ "")
    (hk0mem : k0 ∈ s.entries.map Prod.fst) :
    (CacheManager.set cfg key value size ttl tags now s).evictions =
      s.evictions + 1 ∧
    (CacheManager.set cfg key value size ttl tags now s).entries =
      CacheManager.mapSet key
        ⟨value, now, now + CacheManager.resolveTtl cfg ttl, now, 0, size, key, tags⟩
        (CacheManager.mapDelete k0 s.entries) := by
  have hsets : CacheManager.set cfg key value size ttl tags now s =
      CacheManager.setEntry cfg key value size ttl tags now s := by
    unfold CacheManager.set
    rw [hsz]
    rfl
  have hclean : CacheManager.cleanup now s = s := cleanup_of_no_expired now s hlive
  have hev := evictEntry_lru cfg s k0 hstrat hho hk0ne
  have hk0l : k0 ∈ s.entries.map Prod.fst := hk0mem
  have hlen : (CacheManager.mapDelete k0 s.entries).length + 1 = s.entries.length :=
    mapDelete_length k0 s.entries hnd hk0l
  have hpos : 0 < s.entries.length := by
    rcases List.exists_of_mem_map hk0l with ⟨p, hp, _⟩
    exact List.length_pos.mpr (List.ne_nil_of_mem hp)
  have hevlen : (CacheManager.evictEntry cfg s).entries.length < s.entries.length := by
    rw [hev]
    simp only
    omega
  have hloop : CacheManager.evictLoop cfg (s.entries.length + 1) s =
      CacheManager.evictEntry cfg s := by
    rw [evictLoop_succ, if_pos (le_of_eq hfull.symm), if_pos hevlen]
    have hlen2 : (CacheManager.evictEntry cfg s).entries.length + 1 =
        s.entries.length := by
      rw [hev]
      simp only
      omega
    rw [show s.entries.length = (CacheManager.evictEntry cfg s).entries.length + 1
        from hlen2.symm]
    rw [evictLoop_succ, if_neg (by omega)]
  have hensure : CacheManager.ensureSpace cfg now s = CacheManager.evictEntry cfg s := by
    unfold CacheManager.ensureSpace
    rw [hclean]
    exact hloop
  rw [hsets]
  unfold CacheManager.setEntry
  rw [hensure, hev]
  rw [if_pos hstrat]
  exact ⟨rfl, rfl⟩

/-- Witness for C10: the full LRU store `c10store` holds A (least
recently used) and B; `set` of the existing key B evicts A, not B. -/
theorem c10_witness :
    (CacheManager.set c10cfg "B" 9 1 none [] 5 c10store).evictions =
      c10store.evictions + 1 ∧
    (CacheManager.set c10cfg "B" 9 1 none [] 5 c10store).entries =
      CacheManager.mapSet "B"
        ⟨9, 5, 5 + CacheManager.resolveTtl c10cfg none, 5, 0, 1, "B", []⟩
        (CacheManager.mapDelete "A" c10store.entries) :=
  c10_overwrite_on_full_evicts_lru c10cfg c10store "B" 9 1 none [] 5 "A"
    (by decide) (by decide) (by decide) (by decide) (by decide) (by decide)
    (by decide) (by decide) (by decide)
